import Mathlib

/-
Verification of the checkpoint lifecycle and sequencing front-end in
cmd/bettyfe/main.go (betty). The external collaborators (the note codec in
golang.org/x/mod/sumdb/note, the checkpoint format in
transparency-dev/formats/log, and the posix checkpoint persistence in
storage/posix) are modelled symbolically from the specification; the
functions of main.go itself (currentTree, newTree, the startup sequence,
the latency aggregator, the POST /add handler and the printStats loop) are
embedded directly from the source.
-/

namespace Betty

/-- A note signing key (`note.Signer`): its logical name (the log origin)
and, symbolically, the secret key material identified by a number. -/
structure Signer where
  name : String
  key : Nat
deriving DecidableEq, Repr

/-- A note verifying key (`note.Verifier`): its logical name and,
symbolically, the key material it matches. A signature made with a signer
verifies under a verifier exactly when both name and key coincide. -/
structure Verifier where
  name : String
  key : Nat
deriving DecidableEq, Repr

/-- `f_log.Checkpoint`: the origin identity of the log, the tree size, and
the root hash (a byte string, modelled as a list of bytes). -/
structure Checkpoint where
  origin : String
  size : Nat
  hash : List Nat
deriving DecidableEq, Repr

/-- Modelled from the spec: the text body of a checkpoint note. The marshal
format (origin line, size line, hash line) is injective, so a well-formed
body is kept as the structured checkpoint it marshals; bytes that do not
parse as a checkpoint body are `malformed`. -/
inductive NoteText where
  | body (cp : Checkpoint)
  | malformed (junk : Nat)
deriving DecidableEq, Repr

/-- Modelled from the spec: a signed note — a text body plus signatures,
each identified by a key name together with the key that produced it
(symbolic signature model: a recorded pair (name, key) is a valid
signature on the note's text under exactly that key). -/
structure SignedNote where
  text : NoteText
  sigs : List (String × Nat)
deriving DecidableEq, Repr

/-- The persisted checkpoint state: `none` when no checkpoint file exists
yet, otherwise the stored signed-note bytes. -/
def Store := Option SignedNote

/-- Modelled from the spec: `posix.ReadCheckpoint` — reads the current
checkpoint bytes from the persistence layer, failing with a read error
when no checkpoint exists yet (fresh log). -/
def readCheckpoint (st : Store) : Except String SignedNote :=
  match st with
  | none => .error "no such file or directory"
  | some b => .ok b

/-- Modelled from the spec: `posix.WriteCheckpoint` — writes the signed
bytes to the persistence layer, overwriting any prior checkpoint. -/
def writeCheckpoint (_st : Store) (n : SignedNote) : Store :=
  some n

/-- Modelled from the spec: `f_log.ParseCheckpoint b origin v` — opens the
note checking that the expected verifying key's signature is present and
valid, parses the text body, and checks the declared origin equals
`origin`. Each failure mode carries a distinct error. -/
def parseCheckpoint (b : SignedNote) (origin : String) (v : Verifier) :
    Except String Checkpoint :=
  if (v.name, v.key) ∈ b.sigs then
    match b.text with
    | .body cp => if cp.origin = origin then .ok cp else .error "origin mismatch"
    | .malformed _ => .error "malformed checkpoint"
  else .error "unverified note"

/-- The signed note produced by honestly signing the marshalled checkpoint
with a signer: the body is the checkpoint, the single signature is the
signer's name and key. -/
def mkSigned (cp : Checkpoint) (s : Signer) : SignedNote :=
  { text := .body cp, sigs := [(s.name, s.key)] }

/-- Possible behaviours of the external `note.Sign` step: given the
checkpoint being marshalled and the signer, either the signed note or a
signing error. -/
def SignOracle := Checkpoint → Signer → Except String SignedNote

/-- Modelled from the spec: the honest `note.Sign`, which succeeds and
attaches the signer's signature to the marshalled checkpoint body. -/
def signOk : SignOracle := fun cp s => .ok (mkSigned cp s)

/-- main.go `currentTree`: read the checkpoint bytes (wrapping a read
failure with the "ReadCheckpoint: " tag, as `fmt.Errorf` does), then parse
and verify them against the verifier's name and key, returning the
checkpoint's size and hash. -/
def currentTree (v : Verifier) (st : Store) : Except String (Nat × List Nat) :=
  match readCheckpoint st with
  | .error e => .error ("ReadCheckpoint: " ++ e)
  | .ok b =>
    match parseCheckpoint b v.name v with
    | .error e => .error e
    | .ok cp => .ok (cp.size, cp.hash)

/-- main.go `newTree`: build a checkpoint whose origin is the signer's
name, sign its marshalled body (the `sign` parameter stands for the
external `note.Sign`), and on success write the signed bytes to the
persistence layer. On a signing error that error is returned and nothing
is written. -/
def newTreeWith (sign : SignOracle) (s : Signer) (size : Nat)
    (hash : List Nat) (st : Store) : Except String Unit × Store :=
  let cp : Checkpoint := { origin := s.name, size := size, hash := hash }
  match sign cp s with
  | .error e => (.error e, st)
  | .ok n => (.ok (), writeCheckpoint st n)

/-- The bytes of the string "Empty", the placeholder hash main.go passes
when initialising a fresh log. -/
def emptyHash : List Nat := [69, 109, 112, 116, 121]

/-- main.go lines 94-99: the startup checkpoint initialisation. If reading
and verifying the current checkpoint fails (for any reason), publish an
empty checkpoint of size 0 with the placeholder hash; if that publication
fails the process terminates (modelled as an error result). -/
def mainStartup (sign : SignOracle) (s : Signer) (v : Verifier)
    (st : Store) : Except String Store :=
  match currentTree v st with
  | .ok _ => .ok st
  | .error _ =>
    match newTreeWith sign s 0 emptyHash st with
    | (.error e, _) => .error e
    | (.ok _, st') => .ok st'

/-- The latency aggregator state (durations in nanoseconds, as Go's
`time.Duration` counts them). -/
structure latency where
  total : Int
  n : Nat
  min : Int
  max : Int
deriving DecidableEq, Repr

/-- The zero-value latency aggregator main.go starts from (`&latency{}`). -/
def latency.init : latency :=
  { total := 0, n := 0, min := 0, max := 0 }

/-- `latency.Add`: add the duration to the total, increment the count, and
lower min / raise max when the new sample beats them. -/
def latency.Add (l : latency) (d : Int) : latency :=
  let l1 : latency := { l with total := l.total + d, n := l.n + 1 }
  let l2 : latency := if d < l1.min then { l1 with min := d } else l1
  if d > l2.max then { l2 with max := d } else l2

/-- `latency.String`: `none` stands for the "--" sentinel when no samples
exist; otherwise the (mean, min, max) triple that the formatted string
renders, with mean the truncated division total / n as in Go. -/
def latency.report (l : latency) : Option (Int × Int × Int) :=
  if l.n = 0 then none
  else some (l.total / (l.n : Int), l.min, l.max)

/-- An HTTP response as the `POST /add` handler produces it: status code
and body text. -/
structure Response where
  status : Nat
  body : String
deriving DecidableEq, Repr

/-- main.go lines 104-121, the `POST /add` handler. `bodyRes` is the
outcome of `io.ReadAll(r.Body)`, `seq` the storage engine's `Sequence`,
and `elapsed` the request duration measured for the deferred
`l.Add(time.Since(n))`, which runs on every path out of the handler. -/
def handleAdd (l : latency) (elapsed : Int)
    (bodyRes : Except String (List Nat))
    (seq : List Nat → Except String Nat) : Response × latency :=
  let resp : Response :=
    match bodyRes with
    | .error _ => { status := 500, body := "" }
    | .ok b =>
      match seq b with
      | .error e => { status := 500, body := "Failed to sequence entry: " ++ e }
      | .ok idx => { status := 200, body := toString idx ++ "\n" }
  (resp, l.Add elapsed)

/-- One tick of the `printStats` loop (main.go lines 160-180): `res` is
the result of calling the tree accessor, `lastSize` the size observed on
the previous successful tick (0 initially). Returns the new `lastSize`
and, when one is emitted, the logged (size, added) pair; `added` is the
uint64 difference size - lastSize. -/
def statsTick (res : Except String (Nat × List Nat)) (lastSize : Nat) :
    Nat × Option (Nat × Nat) :=
  match res with
  | .error _ => (lastSize, none)
  | .ok (size, _) =>
    if 0 < lastSize then
      (size, some (size, (size + 2 ^ 64 - lastSize % 2 ^ 64) % 2 ^ 64))
    else
      (size, none)

/-- The `printStats` loop run over a finite trace of accessor results,
starting from a given `lastSize`, collecting every logged line. -/
def statsRun (trace : List (Except String (Nat × List Nat)))
    (lastSize : Nat) : Nat × List (Nat × Nat) :=
  match trace with
  | [] => (lastSize, [])
  | r :: rs =>
    let step := statsTick r lastSize
    let rest := statsRun rs step.1
    (rest.1, step.2.toList ++ rest.2)

/- ------------------------------------------------------------------ -/
/- Theorems                                                            -/
/- ------------------------------------------------------------------ -/

/-- Claim C1: for every size and hash, publishing a checkpoint via
newTree(size, hash) with a signer and then reading it back via currentTree
built over the matching verifier (same name and key) returns exactly that
size and hash with no error. -/
theorem newTree_currentTree_roundtrip (s : Signer) (v : Verifier)
    (hname : v.name = s.name) (hkey : v.key = s.key)
    (size : Nat) (hash : List Nat) (st : Store) :
    currentTree v (newTreeWith signOk s size hash st).2 = .ok (size, hash) := by
  simp [newTreeWith, signOk, mkSigned, writeCheckpoint, currentTree,
    readCheckpoint, parseCheckpoint, hname, hkey]

/-- Witness for C1: a concrete round trip at size 42. -/
theorem newTree_currentTree_roundtrip_witness :
    currentTree ⟨"Test-Betty", 7⟩
      (newTreeWith signOk ⟨"Test-Betty", 7⟩ 42 [1, 2, 3] none).2 =
      .ok (42, [1, 2, 3]) :=
  newTree_currentTree_roundtrip ⟨"Test-Betty", 7⟩ ⟨"Test-Betty", 7⟩
    rfl rfl 42 [1, 2, 3] none

/-- Claim C2, counterexample: when the underlying read fails, currentTree
does not return the read error unmodified — it returns it wrapped with the
"ReadCheckpoint: " tag. -/
theorem currentTree_read_error_not_unmodified :
    readCheckpoint (none : Store) = .error "no such file or directory" ∧
    currentTree ⟨"Test-Betty", 7⟩ none =
      .error ("ReadCheckpoint: " ++ "no such file or directory") ∧
    currentTree ⟨"Test-Betty", 7⟩ none ≠
      .error "no such file or directory" := by
  refine ⟨rfl, rfl, fun h => absurd (Except.error.inj h) (by decide)⟩

/-- Claim C2, amended: when the underlying read fails with error e,
currentTree returns that error wrapped as "ReadCheckpoint: e" (its text
preserved), while every failure on the parse/verify path is one of the
codec's own errors, which do not carry that tag — so callers can still
distinguish the first-run (missing checkpoint) case from a corruption
(parse/verify failure) case. -/
theorem currentTree_read_error_tagged (v : Verifier) (st : Store) :
    (∀ e, readCheckpoint st = .error e →
      currentTree v st = .error ("ReadCheckpoint: " ++ e)) ∧
    (∀ b e, st = some b → currentTree v st = .error e →
      e = "unverified note" ∨ e = "malformed checkpoint" ∨
        e = "origin mismatch") := by
  constructor
  · intro e he
    simp [currentTree, he]
  · intro b e hb he
    subst hb
    simp only [currentTree, readCheckpoint] at he
    unfold parseCheckpoint at he
    by_cases hmem : (v.name, v.key) ∈ b.sigs
    · simp only [hmem, if_true] at he
      cases htext : b.text with
      | body cp =>
        rw [htext] at he
        by_cases horig : cp.origin = v.name
        · simp [horig] at he
        · simp only [horig, if_false] at he
          right; right
          exact (Except.error.injEq _ _).mp he.symm
      | malformed j =>
        rw [htext] at he
        right; left
        exact (Except.error.injEq _ _).mp he.symm
    · simp only [hmem, if_false] at he
      left
      exact (Except.error.injEq _ _).mp he.symm

/-- Witness for C2's amended theorem: on the empty store the read error
comes back with the "ReadCheckpoint: " tag. -/
theorem currentTree_read_error_tagged_witness :
    currentTree ⟨"Test-Betty", 7⟩ none =
      .error ("ReadCheckpoint: " ++ "no such file or directory") :=
  (currentTree_read_error_tagged ⟨"Test-Betty", 7⟩ none).1
    "no such file or directory" rfl

/-- Claim C9: if signing the marshalled checkpoint note fails inside the
newTree closure, the closure returns that error and the persisted
checkpoint state is unchanged. -/
theorem newTree_sign_error_no_write (sign : SignOracle) (s : Signer)
    (size : Nat) (hash : List Nat) (st : Store) (e : String)
    (h : sign { origin := s.name, size := size, hash := hash } s = .error e) :
    newTreeWith sign s size hash st = (.error e, st) := by
  simp [newTreeWith, h]

/-- Witness for C9: a signer whose signing step always fails leaves the
store untouched. -/
theorem newTree_sign_error_no_write_witness :
    newTreeWith (fun _ _ => .error "bad key") ⟨"Test-Betty", 7⟩ 5 [9]
      (some (mkSigned ⟨"Test-Betty", 3, [8]⟩ ⟨"Test-Betty", 7⟩)) =
      (.error "bad key",
        some (mkSigned ⟨"Test-Betty", 3, [8]⟩ ⟨"Test-Betty", 7⟩)) :=
  newTree_sign_error_no_write (fun _ _ => .error "bad key")
    ⟨"Test-Betty", 7⟩ 5 [9]
    (some (mkSigned ⟨"Test-Betty", 3, [8]⟩ ⟨"Test-Betty", 7⟩)) "bad key" rfl

/-- Claim C3: at startup, if reading and verifying the current checkpoint
fails for any reason, the service publishes an empty checkpoint of size 0
via the publisher closure; if that publication itself fails the process
terminates (error result); and after a successful startup a well-formed
checkpoint always exists (currentTree succeeds on the resulting store). -/
theorem startup_initialises_empty_checkpoint (s : Signer) (v : Verifier)
    (hname : v.name = s.name) (hkey : v.key = s.key) (st : Store) :
    (∀ e, currentTree v st = .error e →
      mainStartup signOk s v st =
        .ok (some (mkSigned { origin := s.name, size := 0, hash := emptyHash } s))) ∧
    (∀ sign e e2, currentTree v st = .error e →
      sign { origin := s.name, size := 0, hash := emptyHash } s = .error e2 →
      mainStartup sign s v st = .error e2) ∧
    (∀ st', mainStartup signOk s v st = .ok st' →
      ∃ sz h, currentTree v st' = .ok (sz, h)) := by
  refine ⟨?_, ?_, ?_⟩
  · intro e he
    simp [mainStartup, he, newTreeWith, signOk, writeCheckpoint]
  · intro sign e e2 he hs
    simp [mainStartup, he, newTreeWith, hs]
  · intro st' hok
    unfold mainStartup at hok
    cases hct : currentTree v st with
    | ok p =>
      rw [hct] at hok
      cases hok
      exact ⟨p.1, p.2, hct⟩
    | error e =>
      rw [hct] at hok
      simp only [newTreeWith, signOk, writeCheckpoint] at hok
      cases hok
      refine ⟨0, emptyHash, ?_⟩
      simp [currentTree, readCheckpoint, parseCheckpoint, mkSigned, hname, hkey]

/-- Witness for C3: a matching key pair over an empty store initialises
the size-0 checkpoint. -/
theorem startup_initialises_empty_checkpoint_witness :
    mainStartup signOk ⟨"Test-Betty", 7⟩ ⟨"Test-Betty", 7⟩ none =
      .ok (some (mkSigned
        { origin := "Test-Betty", size := 0, hash := emptyHash }
        ⟨"Test-Betty", 7⟩)) :=
  (startup_initialises_empty_checkpoint ⟨"Test-Betty", 7⟩ ⟨"Test-Betty", 7⟩
      rfl rfl none).1
    ("ReadCheckpoint: " ++ "no such file or directory") rfl

/-- Claim C4, counterexample: starting from the fresh aggregator, after
Add(100ms) then Add(300ms) (durations in nanoseconds) the minimum is 0,
not 100ms: the zero-value minimum is never beaten by a positive sample. -/
theorem latency_min_stays_zero :
    ((latency.init.Add 100000000).Add 300000000).min = 0 ∧
    ((latency.init.Add 100000000).Add 300000000).min ≠ 100000000 := by
  constructor <;> decide

/-- Claim C4, amended: starting from a fresh latency aggregator, calling
Add(100ms) and then Add(300ms) makes the state and Report reflect
count=2, mean=200ms, min=0 (the zero-value initial minimum, never beaten
by a positive sample), and max=300ms. -/
theorem latency_add_two_samples :
    (latency.init.Add 100000000).Add 300000000 =
      { total := 400000000, n := 2, min := 0, max := 300000000 } ∧
    ((latency.init.Add 100000000).Add 300000000).report =
      some (200000000, 0, 300000000) := by
  constructor <;> decide

/-- Claim C6: parsing and verifying a checkpoint signed by some signer via
the currentTree closure with a verifying key that does not match (wrong
key or wrong name) returns an error, never a size/hash pair. -/
theorem mismatched_verifier_rejects (s : Signer) (v : Verifier)
    (cp : Checkpoint) (hmis : v.name ≠ s.name ∨ v.key ≠ s.key) :
    ∀ sz h, currentTree v (some (mkSigned cp s)) ≠ .ok (sz, h) := by
  intro sz h hok
  have hne : ¬ ((v.name, v.key) ∈ (mkSigned cp s).sigs) := by
    simp only [mkSigned, List.mem_singleton, Prod.mk.injEq, not_and_or]
    exact hmis
  simp [currentTree, readCheckpoint, parseCheckpoint, hne] at hok

/-- Witness for C6: a verifier with the right name but wrong key rejects
a checkpoint note signed with the real key. -/
theorem mismatched_verifier_rejects_witness :
    currentTree ⟨"Test-Betty", 8⟩
      (some (mkSigned ⟨"Test-Betty", 5, [1]⟩ ⟨"Test-Betty", 7⟩)) ≠
      .ok (5, [1]) :=
  mismatched_verifier_rejects ⟨"Test-Betty", 7⟩ ⟨"Test-Betty", 8⟩
    ⟨"Test-Betty", 5, [1]⟩ (Or.inr (by decide)) 5 [1]

/-- Claim C5: for every request to POST /add: if the body is read and
Sequence returns index idx, the response is 200 with body "idx\n"; if
Sequence returns an error, the response is 500 with a diagnostic body
containing that error's text; if reading the body fails, the response is
500 with an empty body. -/
theorem handleAdd_response_spec (l : latency) (elapsed : Int)
    (bodyRes : Except String (List Nat))
    (seq : List Nat → Except String Nat) :
    (∀ b idx, bodyRes = .ok b → seq b = .ok idx →
      (handleAdd l elapsed bodyRes seq).1 =
        { status := 200, body := toString idx ++ "\n" }) ∧
    (∀ b e, bodyRes = .ok b → seq b = .error e →
      (handleAdd l elapsed bodyRes seq).1 =
        { status := 500, body := "Failed to sequence entry: " ++ e }) ∧
    (∀ e, bodyRes = .error e →
      (handleAdd l elapsed bodyRes seq).1 = { status := 500, body := "" }) := by
  refine ⟨?_, ?_, ?_⟩
  · intro b idx hb hs
    simp [handleAdd, hb, hs]
  · intro b e hb hs
    simp [handleAdd, hb, hs]
  · intro e hb
    simp [handleAdd, hb]

/-- Witness for C5: a concrete successful sequencing responds 200 with the
index followed by a newline. -/
theorem handleAdd_response_spec_witness :
    (handleAdd latency.init 5 (.ok [104, 105]) (fun _ => .ok 3)).1 =
      { status := 200, body := toString 3 ++ "\n" } :=
  (handleAdd_response_spec latency.init 5 (.ok [104, 105])
      (fun _ => .ok 3)).1 [104, 105] 3 rfl rfl

/-- Claim C7: every checkpoint published by the newTree closure declares
as its origin exactly the signer's name (and carries the signer's
signature), and the currentTree closure accepts a checkpoint only if its
stored note has a well-formed body whose declared origin equals the
verifier's name and whose signature verifies under the verifier's name
and key. -/
theorem checkpoint_validity_invariant (s : Signer) (v : Verifier)
    (size : Nat) (hash : List Nat) (st : Store) :
    ((newTreeWith signOk s size hash st).2 =
      some { text := .body { origin := s.name, size := size, hash := hash },
             sigs := [(s.name, s.key)] }) ∧
    (∀ sz h, currentTree v st = .ok (sz, h) →
      ∃ b cp, st = some b ∧ b.text = .body cp ∧ cp.origin = v.name ∧
        (v.name, v.key) ∈ b.sigs ∧ cp.size = sz ∧ cp.hash = h) := by
  constructor
  · simp [newTreeWith, signOk, mkSigned, writeCheckpoint]
  · intro sz h hok
    cases st with
    | none => simp [currentTree, readCheckpoint] at hok
    | some b =>
      simp only [currentTree, readCheckpoint] at hok
      unfold parseCheckpoint at hok
      by_cases hmem : (v.name, v.key) ∈ b.sigs
      · simp only [hmem, if_true] at hok
        cases htext : b.text with
        | body cp =>
          rw [htext] at hok
          by_cases horig : cp.origin = v.name
          · simp only [horig, if_true] at hok
            have hpair : cp.size = sz ∧ cp.hash = h := by
              have := Except.ok.inj hok
              exact ⟨congrArg Prod.fst this, congrArg Prod.snd this⟩
            exact ⟨b, cp, rfl, htext, horig, hmem, hpair.1, hpair.2⟩
          · simp [horig] at hok
        | malformed j =>
          rw [htext] at hok
          simp at hok
      · simp [hmem] at hok

/-- Witness for C7: a published checkpoint read back successfully exposes
the stored note with the matching origin and signature. -/
theorem checkpoint_validity_invariant_witness :
    ∃ b cp, (some (mkSigned ⟨"Test-Betty", 5, [1]⟩ ⟨"Test-Betty", 7⟩) : Store)
        = some b ∧
      b.text = .body cp ∧ cp.origin = "Test-Betty" ∧
      ("Test-Betty", 7) ∈ b.sigs ∧ cp.size = 5 ∧ cp.hash = [1] :=
  (checkpoint_validity_invariant ⟨"Test-Betty", 7⟩ ⟨"Test-Betty", 7⟩ 5 [1]
      (some (mkSigned ⟨"Test-Betty", 5, [1]⟩ ⟨"Test-Betty", 7⟩))).2 5 [1] rfl

/-- Claim C8: for every request to POST /add, the latency aggregator's
Add is invoked with the request's elapsed time even when Sequence returns
an error: the failed call's duration is recorded and the sample count is
incremented by one. -/
theorem latency_recorded_on_sequence_error (l : latency) (elapsed : Int)
    (bodyRes : Except String (List Nat))
    (seq : List Nat → Except String Nat) (b : List Nat) (e : String)
    (hb : bodyRes = .ok b) (hs : seq b = .error e) :
    (handleAdd l elapsed bodyRes seq).2 = l.Add elapsed ∧
    ((handleAdd l elapsed bodyRes seq).2).n = l.n + 1 := by
  refine ⟨rfl, ?_⟩
  show (l.Add elapsed).n = l.n + 1
  unfold latency.Add
  dsimp only
  split <;> split <;> rfl

/-- Witness for C8: a failing Sequence still bumps the sample count. -/
theorem latency_recorded_on_sequence_error_witness :
    (handleAdd latency.init 5 (.ok [104]) (fun _ => .error "disk full")).2 =
      latency.init.Add 5 ∧
    ((handleAdd latency.init 5 (.ok [104])
        (fun _ => .error "disk full")).2).n = latency.init.n + 1 :=
  latency_recorded_on_sequence_error latency.init 5 (.ok [104])
    (fun _ => .error "disk full") [104] "disk full" rfl rfl

/-- Claim C10: a stats line is logged on a tick exactly when the accessor
read succeeded and the size observed on a previous successful tick was
positive; the remembered size is updated on every successful tick and
kept on failures; and over any trace from the initial state in which
every successfully observed size is 0 — in particular up to and including
the first successful tick — nothing is logged. -/
theorem printStats_logs_only_after_positive
    (res : Except String (Nat × List Nat)) (lastSize : Nat)
    (trace : List (Except String (Nat × List Nat))) :
    ((statsTick res lastSize).2.isSome ↔
      (∃ sz h, res = .ok (sz, h)) ∧ 0 < lastSize) ∧
    (∀ sz h, res = .ok (sz, h) → (statsTick res lastSize).1 = sz) ∧
    (∀ e, res = .error e → (statsTick res lastSize).1 = lastSize) ∧
    ((∀ sz h, .ok (sz, h) ∈ trace → sz = 0) → (statsRun trace 0).2 = []) := by
  refine ⟨?_, ?_, ?_, ?_⟩
  · cases res with
    | error e => simp [statsTick]
    | ok p =>
      cases p with
      | mk sz h =>
        by_cases hpos : 0 < lastSize
        · simp [statsTick, hpos]
        · simp [statsTick, hpos]
  · intro sz h hres
    subst hres
    by_cases hpos : 0 < lastSize
    · simp [statsTick, hpos]
    · simp [statsTick, hpos]
  · intro e hres
    subst hres
    rfl
  · intro hzero
    induction trace with
    | nil => rfl
    | cons r rs ih =>
      have hr : ∀ sz h, r = .ok (sz, h) → sz = 0 := by
        intro sz h hre
        exact hzero sz h (hre ▸ List.mem_cons_self r rs)
      have hrs : ∀ sz h, .ok (sz, h) ∈ rs → sz = 0 := by
        intro sz h hm
        exact hzero sz h (List.mem_cons_of_mem r hm)
      cases r with
      | error e =>
        simp only [statsRun, statsTick, Option.toList, List.nil_append]
        exact ih hrs
      | ok p =>
        cases p with
        | mk sz h =>
          have hsz : sz = 0 := hr sz h rfl
          subst hsz
          simp only [statsRun, statsTick, lt_irrefl, if_false,
            Option.toList, List.nil_append]
          exact ih hrs

/-- Witness for C10: a successful tick after a positive observation logs
a line and updates the remembered size; an all-zero trace logs nothing. -/
theorem printStats_logs_only_after_positive_witness :
    (statsTick (.ok (5, [])) 2).1 = 5 ∧
    (statsRun [.ok (0, []), .error "boom", .ok (0, [1])] 0).2 = [] :=
  ⟨(printStats_logs_only_after_positive (.ok (5, [])) 2 []).2.1 5 [] rfl,
    (printStats_logs_only_after_positive (.error "x") 0
        [.ok (0, []), .error "boom", .ok (0, [1])]).2.2.2
      (by intro sz h hm; simp at hm; omega)⟩

end Betty
